import Mathlib

set_option maxHeartbeats 1000000
set_option linter.unreachableTactic false
set_option linter.unusedTactic false

/-!
Verification development for the provider browser-automation engine of the
oracle repository.  The TypeScript sources are shallowly embedded as pure
Lean functions: asynchronous stage functions become values describing their
outcome, effectful flows become functions that also return an explicit trace
of the side effects they perform, and JavaScript optional/nullable values
become `Option`.
-/

namespace Oracle

/-! ## String primitives

JavaScript string methods are embedded as character-list computations so
that every definition evaluates by kernel reduction on concrete inputs. -/

/-- Embedding of `String.prototype.toLowerCase` (charwise). -/
def strToLower (s : String) : String := String.mk (s.data.map Char.toLower)

/-- Embedding of `String.prototype.trim`. -/
def strTrim (s : String) : String :=
  String.mk (((s.data.dropWhile Char.isWhitespace).reverse.dropWhile Char.isWhitespace).reverse)

/-- Decides whether the first list is a leading segment of the second. -/
def listIsLeading : List Char → List Char → Bool
  | [], _ => true
  | _ :: _, [] => false
  | a :: as, b :: bs => a = b && listIsLeading as bs

/-- Embedding of `String.prototype.startsWith`. -/
def strStartsWith (s p : String) : Bool := listIsLeading p.data s.data

/-- Embedding of `String.prototype.endsWith`. -/
def strEndsWith (s p : String) : Bool := listIsLeading p.data.reverse s.data.reverse

/-- Embedding of `String.prototype.slice(n)` for a non-negative index. -/
def strDrop (s : String) (n : Nat) : String := String.mk (s.data.drop n)

/-- Character length of a string, the JavaScript `length`. -/
def strLength (s : String) : Nat := s.data.length

/-- JavaScript truthiness of a nullable string: present and non-empty. -/
def truthyStr : Option String → Bool
  | some s => s ≠ ""
  | none => false

/-- JavaScript truthiness of a nullable number: present and non-zero. -/
def truthyNat : Option Nat → Bool
  | some n => n ≠ 0
  | none => false

/-! ## Execution mode selector (`selectGeminiExecutionMode`) -/

inductive GeminiExecutionMode
  | dom
  | http
  deriving DecidableEq, Repr

structure GeminiExecutionModeSelection where
  mode : GeminiExecutionMode
  reasons : List String
  deriving DecidableEq, Repr

/-- Input of the selector.  `model` is the resolved model identifier string;
`generateImagePath` / `editImagePath` are the optional image-operation paths,
tested with JavaScript truthiness in the source. -/
structure GeminiExecutionModeInput where
  model : String
  attachmentPaths : List String
  generateImagePath : Option String
  editImagePath : Option String

/-- Embedding of `selectGeminiExecutionMode` from the execution-mode module. -/
def selectGeminiExecutionMode (input : GeminiExecutionModeInput) : GeminiExecutionModeSelection :=
  if input.model ≠ "gemini-3-pro-deep-think" then
    { mode := .http, reasons := ["model"] }
  else
    let reasons : List String :=
      (if input.attachmentPaths.length > 0 then ["attachments"] else []) ++
      (if truthyStr input.generateImagePath then ["image-generation"] else []) ++
      (if truthyStr input.editImagePath then ["image-edit"] else [])
    if reasons.length = 0 then { mode := .dom, reasons := [] }
    else { mode := .http, reasons := reasons }

/-! ## Web-model resolution (`resolveGeminiWebModel` in executor.ts) -/

/-- Character class of the regex `[_\s]+` used by the resolver. -/
def isModelSepChar (c : Char) : Bool := c = '_' || c.isWhitespace

/-- Replacement of every maximal run of `[_\s]+` characters by a single
hyphen, the effect of `.replace(/[_\s]+/g, '-')`.  The boolean records
whether the previous character belonged to a run. -/
def collapseSepsAux : List Char → Bool → List Char
  | [], _ => []
  | c :: rest, prevSep =>
    if isModelSepChar c then
      if prevSep then collapseSepsAux rest true
      else '-' :: collapseSepsAux rest true
    else c :: collapseSepsAux rest false

def collapseSeps (s : String) : String := String.mk (collapseSepsAux s.data false)

/-- Normalisation applied by the resolver: lowercase, then collapse
underscore/whitespace runs to hyphens. -/
def normalizeGeminiModelName (s : String) : String := collapseSeps (strToLower s)

/-- The `typeof desiredModel === 'string' ? desiredModel.trim() : ''` step:
`null` and `undefined` both become the empty string. -/
def resolveDesiredGeminiModel : Option String → String
  | some s => strTrim s
  | none => ""

/-- Embedding of `resolveGeminiWebModel` (executor.ts).  The codomain is
`String` so that the closed set of possible results is a provable fact
rather than a typing artefact. -/
def resolveGeminiWebModel (desiredModel : Option String) : String :=
  if resolveDesiredGeminiModel desiredModel = "" then "gemini-3-pro"
  else if normalizeGeminiModelName (resolveDesiredGeminiModel desiredModel) = "gemini-3-pro" ∨
      normalizeGeminiModelName (resolveDesiredGeminiModel desiredModel) = "gemini-3.0-pro" then
    "gemini-3-pro"
  else if normalizeGeminiModelName (resolveDesiredGeminiModel desiredModel) = "gemini-3-deep-think" ∨
      normalizeGeminiModelName (resolveDesiredGeminiModel desiredModel) = "gemini-3-pro-deep-think" ∨
      normalizeGeminiModelName (resolveDesiredGeminiModel desiredModel) = "gemini-3-pro-deepthink" then
    "gemini-3-pro-deep-think"
  else if normalizeGeminiModelName (resolveDesiredGeminiModel desiredModel) = "gemini-2.5-pro" then
    "gemini-2.5-pro"
  else if normalizeGeminiModelName (resolveDesiredGeminiModel desiredModel) = "gemini-2.5-flash" then
    "gemini-2.5-flash"
  else "gemini-3-pro"

/-- The four members of the `GeminiWebModelId` union type. -/
def geminiWebModelIds : List String :=
  ["gemini-3-pro", "gemini-3-pro-deep-think", "gemini-2.5-pro", "gemini-2.5-flash"]

/-- The normalized names recognised by the `switch` of the resolver. -/
def knownGeminiModelNames : List String :=
  ["gemini-3-pro", "gemini-3.0-pro", "gemini-3-deep-think", "gemini-3-pro-deep-think",
   "gemini-3-pro-deepthink", "gemini-2.5-pro", "gemini-2.5-flash"]

/-! ## Non-DOM path timeout resolution (`createGeminiWebExecutor`) -/

/-- Embedding of the timeout computation of the executor closure.
`configTimeoutMs` is `some t` exactly when `runOptions.config.timeoutMs` is a
finite number; `youtube`, `generateImage` and `editImage` are the raw
(truthiness-tested) fields of the Gemini options. -/
def resolveGeminiTimeoutMs (configTimeoutMs : Option Int)
    (youtube generateImage editImage : Option String) : Int :=
  let configTimeout : Option Int := configTimeoutMs.map (fun t => max 1000 t)
  let defaultTimeoutMs : Int :=
    if truthyStr youtube then 240000
    else if truthyStr generateImage || truthyStr editImage then 300000
    else 120000
  min (configTimeout.getD defaultTimeoutMs) 600000

/-! ## Cookie resolution (executor.ts) -/

/-- Embedding of the protocol cookie record used by the executor: every
field is optional, `value` is `some` exactly when the JavaScript value is a
string. -/
structure CookieParam where
  name : Option String
  value : Option String
  domain : Option String
  path : Option String
  url : Option String
  deriving DecidableEq, Repr

def GEMINI_COOKIE_NAMES : List String :=
  ["__Secure-1PSID", "__Secure-1PSIDTS", "__Secure-1PSIDCC", "__Secure-1PAPISID",
   "NID", "AEC", "SOCS", "__Secure-BUCKET", "__Secure-ENID", "SID", "HSID", "SSID",
   "APISID", "SAPISID", "__Secure-3PSID", "__Secure-3PSIDTS", "__Secure-3PAPISID", "SIDCC"]

def GEMINI_REQUIRED_COOKIES : List String := ["__Secure-1PSID", "__Secure-1PSIDTS"]

/-- The `cookie.url` branch of `resolveCookieDomain`.  `parseHost` stands
for the platform operation `new URL(u).hostname`; `none` models the URL
constructor throwing, which the source catches and maps to `null`. -/
def resolveCookieDomainFromUrl (parseHost : String → Option String) (c : CookieParam) :
    Option String :=
  match c.url with
  | some u => if strTrim u ≠ "" then parseHost (strTrim u) else none
  | none => none

/-- Embedding of `resolveCookieDomain` (executor.ts): a trimmed non-empty
`domain` wins, with one leading dot stripped; otherwise the hostname of a
trimmed non-empty `url`; otherwise `null`. -/
def resolveCookieDomain (parseHost : String → Option String) (c : CookieParam) : Option String :=
  match c.domain with
  | some d =>
    if strTrim d ≠ "" then
      some (if strStartsWith (strTrim d) "." then strDrop (strTrim d) 1 else strTrim d)
    else resolveCookieDomainFromUrl parseHost c
  | none => resolveCookieDomainFromUrl parseHost c

/-- The match filter of `pickCookieValue`: same name and a string value. -/
def cookieNameMatches (name : String) (c : CookieParam) : Bool :=
  c.name = some name && c.value.isSome

/-- The `preferredDomain` predicate of `pickCookieValue`: resolved domain
exactly `google.com` and path defaulting to the root path. -/
def isExactApexCookie (parseHost : String → Option String) (c : CookieParam) : Bool :=
  resolveCookieDomain parseHost c = some "google.com" && c.path.getD "/" = "/"

/-- The `googleDomain` predicate of `pickCookieValue`: the resolved domain
(defaulting to the empty string) ends with `google.com`. -/
def hasApexSuffixDomain (parseHost : String → Option String) (c : CookieParam) : Bool :=
  strEndsWith ((resolveCookieDomain parseHost c).getD "") "google.com"

/-- Embedding of `pickCookieValue` (executor.ts). -/
def pickCookieValue (parseHost : String → Option String) (cookies : List CookieParam)
    (name : String) : Option String :=
  let found := cookies.filter (cookieNameMatches name)
  if found.isEmpty then none
  else
    let preferredDomain := found.find? (isExactApexCookie parseHost)
    let googleDomain := found.find? (hasApexSuffixDomain parseHost)
    ((preferredDomain.orElse fun _ => googleDomain).orElse fun _ => found.head?).bind
      fun c => c.value

/-- Embedding of `buildGeminiCookieMap`: one entry per allow-listed cookie
name whose picked value is truthy, in allow-list order. -/
def buildGeminiCookieMap (parseHost : String → Option String) (cookies : List CookieParam) :
    List (String × String) :=
  GEMINI_COOKIE_NAMES.filterMap fun n =>
    match pickCookieValue parseHost cookies n with
    | some v => if v ≠ "" then some (n, v) else none
    | none => none

/-- Embedding of `hasRequiredGeminiCookies`: both required cookie names map
to truthy values. -/
def hasRequiredGeminiCookies (m : List (String × String)) : Bool :=
  GEMINI_REQUIRED_COOKIES.all fun n =>
    match m.lookup n with
    | some v => v ≠ ""
    | none => false

/-- Object-spread merge `\x7b...base, ...override\x7d`: keys keep the base
enumeration order, override values win, new override keys follow. -/
def mergeCookieMaps (base override : List (String × String)) : List (String × String) :=
  (base.map fun kv => (kv.1, (override.lookup kv.1).getD kv.2)) ++
    override.filter fun kv => base.lookup kv.1 = none

/-- The browser-config fields consulted by the cookie chain.  `manualLogin`
is the already-coerced boolean; `cookieSync` keeps its three JavaScript
states (absent / true / false). -/
structure GeminiBrowserConfig where
  inlineCookies : Option (List CookieParam)
  manualLogin : Bool
  cookieSync : Option Bool

/-- Embedding of `loadGeminiCookiesFromInline`: empty unless inline cookies
are present, filtered to entries with a truthy name and a string value. -/
def loadGeminiCookiesFromInline (parseHost : String → Option String)
    (config : GeminiBrowserConfig) : List (String × String) :=
  match config.inlineCookies with
  | none => []
  | some inline =>
    if inline.isEmpty then []
    else buildGeminiCookieMap parseHost
      (inline.filter fun c => truthyStr c.name && c.value.isSome)

/-- Result of the cookie chain, instrumented with which fallible side paths
were invoked. -/
structure GeminiCookieLoadResult where
  cookieMap : List (String × String)
  usedCdpPath : Bool
  usedChromePath : Bool
  deriving DecidableEq, Repr

/-- Embedding of `loadGeminiCookies` (executor.ts).  The two effectful side
paths are abstracted by their outcomes: `cdpResult` is what the
interactive/manual CDP extraction would produce (an exception or a map) and
`chromeResult` what the native Chrome cookie-store read would produce (that
path catches its own errors and yields an empty map).  The instrumentation
booleans record whether the corresponding path was invoked. -/
def loadGeminiCookies (parseHost : String → Option String) (config : GeminiBrowserConfig)
    (preferManualNoKeychain : Bool)
    (cdpResult : Except String (List (String × String)))
    (chromeResult : List (String × String)) : Except String GeminiCookieLoadResult :=
  let inlineMap := loadGeminiCookiesFromInline parseHost config
  if hasRequiredGeminiCookies inlineMap then .ok ⟨inlineMap, false, false⟩
  else if config.manualLogin || preferManualNoKeychain then
    match cdpResult with
    | .error e => .error e
    | .ok cdpMap => .ok ⟨mergeCookieMaps cdpMap inlineMap, true, false⟩
  else if config.cookieSync = some false then .ok ⟨inlineMap, false, false⟩
  else .ok ⟨mergeCookieMaps chromeResult inlineMap, false, true⟩

/-- Spec-worded domain preference for the refinement check of the
domain-matching rule: the stored cookie domain is a suffix of the apex
domain `google.com` (the literal reading of the spec sentence). -/
def specDomainSuffixOfApex (parseHost : String → Option String) (c : CookieParam) : Bool :=
  match resolveCookieDomain parseHost c with
  | some d => strEndsWith "google.com" d
  | none => false

/-- URL parser that always fails, for concrete instances whose cookies all
carry explicit domains. -/
def parseHostNone : String → Option String := fun _ => none

def c4CookieA : CookieParam :=
  { name := some "SID", value := some "v1", domain := some "oogle.com", path := none, url := none }

def c4CookieB : CookieParam :=
  { name := some "SID", value := some "v2", domain := some "gemini.google.com",
    path := none, url := none }

def c4Cookies : List CookieParam := [c4CookieA, c4CookieB]

def c4ExactCookie : CookieParam :=
  { name := some "SID", value := some "w1", domain := some ".google.com",
    path := some "/", url := none }

def c4ExactCookies : List CookieParam := [c4ExactCookie]

def c3InlineConfig : GeminiBrowserConfig :=
  { inlineCookies := some
      [{ name := some "__Secure-1PSID", value := some "a", domain := some "google.com",
         path := none, url := none },
       { name := some "__Secure-1PSIDTS", value := some "b", domain := some "google.com",
         path := none, url := none }],
    manualLogin := true, cookieSync := some false }

/-! ## Provider DOM flow state machine (providerDomFlow.ts) -/

inductive DomStage
  | waitForUi
  | selectMode
  | typePrompt
  | submitPrompt
  | waitForResponse
  | extractThoughts
  deriving DecidableEq, Repr

structure ProviderDomResponse where
  text : String
  html : Option String
  deriving DecidableEq, Repr

/-- Shallow embedding of a provider adapter: each asynchronous stage is
abstracted by the outcome it would produce on the flow context, with
`Option` marking the two optional capabilities (absent stage = `none`). -/
structure ProviderDomAdapter (ε : Type) where
  waitForUi : Except ε Unit
  selectMode : Option (Except ε Unit)
  typePrompt : Except ε Unit
  submitPrompt : Except ε Unit
  waitForResponse : Except ε ProviderDomResponse
  extractThoughts : Option (Except ε (Option String))

/-- The spread `\x7b...response, thoughts\x7d` produced by the flow. -/
structure ProviderDomFlowResult where
  response : ProviderDomResponse
  thoughts : Option String
  deriving DecidableEq, Repr

/-- Embedding of `runProviderSubmissionFlow`: sequences `waitForUi`, the
optional `selectMode`, `typePrompt` and `submitPrompt`, stopping at the
first stage that throws.  The first component records, in order, the stages
that were invoked. -/
def runProviderSubmissionFlow {ε : Type} (a : ProviderDomAdapter ε) :
    List DomStage × Except ε Unit :=
  match a.waitForUi with
  | .error e => ([.waitForUi], .error e)
  | .ok _ =>
    match a.selectMode with
    | some (.error e) => ([.waitForUi, .selectMode], .error e)
    | some (.ok _) =>
      match a.typePrompt with
      | .error e => ([.waitForUi, .selectMode, .typePrompt], .error e)
      | .ok _ => ([.waitForUi, .selectMode, .typePrompt, .submitPrompt], a.submitPrompt)
    | none =>
      match a.typePrompt with
      | .error e => ([.waitForUi, .typePrompt], .error e)
      | .ok _ => ([.waitForUi, .typePrompt, .submitPrompt], a.submitPrompt)

/-- Embedding of `runProviderDomFlow`: the submission flow, then
`waitForResponse`, then the optional `extractThoughts`; an absent
`extractThoughts` yields `thoughts = none` without any invocation. -/
def runProviderDomFlow {ε : Type} (a : ProviderDomAdapter ε) :
    List DomStage × Except ε ProviderDomFlowResult :=
  match runProviderSubmissionFlow a with
  | (tr, .error e) => (tr, .error e)
  | (tr, .ok _) =>
    match a.waitForResponse with
    | .error e => (tr ++ [.waitForResponse], .error e)
    | .ok resp =>
      match a.extractThoughts with
      | none => (tr ++ [.waitForResponse], .ok ⟨resp, none⟩)
      | some (.error e) => (tr ++ [.waitForResponse, .extractThoughts], .error e)
      | some (.ok th) => (tr ++ [.waitForResponse, .extractThoughts], .ok ⟨resp, th⟩)

/-- The full fixed stage order for an adapter, optional stages included
exactly when the adapter defines them. -/
def expectedDomStages {ε : Type} (a : ProviderDomAdapter ε) : List DomStage :=
  [DomStage.waitForUi] ++ (if a.selectMode.isSome then [DomStage.selectMode] else []) ++
    [DomStage.typePrompt, DomStage.submitPrompt, DomStage.waitForResponse] ++
    (if a.extractThoughts.isSome then [DomStage.extractThoughts] else [])

/-- Concrete adapter with every stage defined and succeeding, used to
instantiate the flow theorems. -/
def c5Adapter : ProviderDomAdapter String :=
  { waitForUi := .ok (), selectMode := some (.ok ()), typePrompt := .ok (),
    submitPrompt := .ok (), waitForResponse := .ok ⟨"pong", none⟩,
    extractThoughts := some (.ok (some "trace")) }

/-! ## Gemini Deep Think waitForUi stage (deepThinkDomProvider) -/

/-- The object computed by the in-page poll snippet of `waitForUi`. -/
structure GeminiUiPollState where
  ready : Bool
  requiresLogin : Bool
  deriving DecidableEq, Repr

def geminiSignInMessage : String :=
  "Gemini is showing a sign-in flow. Please sign in in Chrome and retry."

def geminiUiTimeoutMessage : String :=
  "Timed out waiting for Gemini UI prompt input to become ready."

/-- The `state?.ready` access: `none` models `ctx.evaluate` yielding
`undefined`, whose optional-chained field is falsy. -/
def pollReady : Option GeminiUiPollState → Bool
  | some s => s.ready
  | none => false

/-- The `state?.requiresLogin` access. -/
def pollRequiresLogin : Option GeminiUiPollState → Bool
  | some s => s.requiresLogin
  | none => false

/-- Embedding of the `waitForUi` polling loop of the Gemini Deep Think
provider.  The wall-clock deadline is abstracted into the list of
observations the loop makes before the deadline elapses, processed in
order; the boolean is the accumulated `sawLoginRedirect` flag.  An
exhausted list is the loop leaving its `while` on the deadline. -/
def waitForUiLoop : List (Option GeminiUiPollState) → Bool → Except String Unit
  | [], sawLoginRedirect =>
    .error (if sawLoginRedirect then geminiSignInMessage else geminiUiTimeoutMessage)
  | o :: rest, sawLoginRedirect =>
    if pollReady o then .ok ()
    else waitForUiLoop rest (sawLoginRedirect || pollRequiresLogin o)

/-- Embedding of `waitForUi`: the loop starts with no redirect observed. -/
def waitForUi (polls : List (Option GeminiUiPollState)) : Except String Unit :=
  waitForUiLoop polls false

/-! ## Gemini Deep Think extractThoughts stage (deepThinkDomProvider) -/

/-- The `model-thoughts` element as seen by the extraction snippet:
`fullRaw` is its `textContent`, `btnRaw` the `textContent` of the nested
toggle button when present. -/
structure ThoughtsEl where
  fullRaw : Option String
  btnRaw : Option String
  deriving DecidableEq, Repr

/-- The in-page extraction snippet of `extractThoughts`: empty string when
the element is absent, otherwise the trimmed text with a non-empty leading
toggle caption stripped and the remainder re-trimmed. -/
def pageExtractThoughts : Option ThoughtsEl → String
  | none => ""
  | some el =>
    if strTrim (el.btnRaw.getD "") ≠ "" ∧
        strStartsWith (strTrim (el.fullRaw.getD "")) (strTrim (el.btnRaw.getD "")) = true then
      strTrim (strDrop (strTrim (el.fullRaw.getD "")) (strLength (strTrim (el.btnRaw.getD ""))))
    else strTrim (el.fullRaw.getD "")

/-- Embedding of `extractThoughts` (deepThinkDomProvider).  `thinkResult`
is the value of the toggle-click evaluation (`none` models `undefined`);
`domEval` is the outcome of the extraction evaluation: `none` models
`undefined`, `some d` the snippet run against element state `d`.  The
codomain is `Except` to make the absence of any throwing path a provable
statement. -/
def extractThoughts (thinkResult : Option String)
    (domEval : Option (Option ThoughtsEl)) : Except String (Option String) :=
  if thinkResult ≠ some "clicked" then .ok none
  else
    match domEval with
    | none => .ok none
    | some dom =>
      let extracted := pageExtractThoughts dom
      .ok (if strLength extracted > 0 then some extracted else none)

/-! ## Browser session lifecycle (browserSessionManager.ts) -/

/-- The `lockRemovalMode` values accepted by `cleanupStaleProfileState`. -/
inductive LockRemovalMode
  | never
  | ifOraclePidDead
  deriving DecidableEq, Repr

/-- Side effects performed by `openGeminiBrowserSession` and its `close`
closure, in the order they are issued. -/
inductive SessionEvent
  | probePort (port : Nat)
  | logStalePort (port : Nat)
  | cleanupProfile (mode : LockRemovalMode)
  | logLaunch
  | launchChrome
  | writePort (port : Nat)
  | writePid (pid : Nat)
  | logReuse (port : Nat)
  | connectNewTab (port : Nat)
  | closeTab (port : Nat) (targetId : String)
  | closeClient
  | killChrome
  deriving DecidableEq, Repr

structure GeminiBrowserSessionState where
  port : Nat
  targetId : Option String
  chromeWasLaunched : Bool
  deriving DecidableEq, Repr

/-- Embedding of `openGeminiBrowserSession`.  The environment is abstracted
by: `recordedPort`, the persisted DevTools port read from the profile
directory (`none` when absent, `0` is falsy); `probeOk`, whether
`verifyDevToolsReachable` reports the recorded port reachable;
`launchPort` and `launchPid`, the port and optional pid a fresh Chrome
launch would yield; `targetId`, the target created by `connectWithNewTab`.
The function is total: a probe failure is logged and repaired, never
surfaced, and the result always carries a connected session state. -/
def openGeminiBrowserSession (recordedPort : Option Nat) (probeOk : Bool)
    (launchPort : Nat) (launchPid : Option Nat) (targetId : Option String) :
    List SessionEvent × GeminiBrowserSessionState :=
  let probeEvents : List SessionEvent :=
    match recordedPort with
    | some p =>
      if p ≠ 0 then
        if probeOk then [.probePort p]
        else [.probePort p, .logStalePort p, .cleanupProfile .ifOraclePidDead]
      else []
    | none => []
  let portAfterProbe : Option Nat :=
    match recordedPort with
    | some p => if p ≠ 0 then (if probeOk then some p else none) else some p
    | none => none
  let launchBranch : List SessionEvent × GeminiBrowserSessionState :=
    (probeEvents ++ [.logLaunch, .launchChrome, .writePort launchPort] ++
      (match launchPid with | some pid => [.writePid pid] | none => []) ++
      [.connectNewTab launchPort],
     ⟨launchPort, targetId, true⟩)
  match portAfterProbe with
  | some p =>
    if p ≠ 0 then (probeEvents ++ [.logReuse p, .connectNewTab p], ⟨p, targetId, false⟩)
    else launchBranch
  | none => launchBranch

/-- Embedding of the `close` closure returned by `openGeminiBrowserSession`:
with `keepBrowser` only the connection is closed; otherwise the isolated
target is closed when a truthy target id and port exist, the connection is
closed, and when this invocation launched Chrome the process is killed and
the profile state cleaned with the `never` lock-removal mode. -/
def closeGeminiBrowserSession (keepBrowser : Bool) (port : Nat) (targetId : Option String)
    (chromeWasLaunched : Bool) : List SessionEvent :=
  if keepBrowser then [.closeClient]
  else
    (match targetId with
     | some t => if t ≠ "" ∧ port ≠ 0 then [SessionEvent.closeTab port t] else []
     | none => []) ++
    [SessionEvent.closeClient] ++
    (if chromeWasLaunched then
      [SessionEvent.killChrome, SessionEvent.cleanupProfile .never] else [])

/-! # Theorems -/

/-- C1: for the DOM-automation-capable model with a non-empty attachment
list the selector yields mode `http` with reason `attachments`; for the
same model with no attachments and no image-generation or image-edit path
it yields mode `dom` with an empty reasons list. -/
theorem selectGeminiExecutionMode_spec (input : GeminiExecutionModeInput) :
    (input.model = "gemini-3-pro-deep-think" → input.attachmentPaths ≠ [] →
      (selectGeminiExecutionMode input).mode = .http ∧
      "attachments" ∈ (selectGeminiExecutionMode input).reasons) ∧
    (input.model = "gemini-3-pro-deep-think" → input.attachmentPaths = [] →
      truthyStr input.generateImagePath = false → truthyStr input.editImagePath = false →
      selectGeminiExecutionMode input = { mode := .dom, reasons := [] }) := by
  constructor
  · intro hm ha
    have hlen : 0 < input.attachmentPaths.length := List.length_pos.mpr ha
    simp only [selectGeminiExecutionMode, hm, ne_eq, not_true_eq_false, if_false]
    have hif : (if input.attachmentPaths.length > 0 then ["attachments"] else ["attachments"].tail)
        = ["attachments"] := by
      simp [hlen]
    simp only [gt_iff_lt, hlen, if_true]
    constructor
    · split <;> simp_all
    · split <;> simp_all
  · intro hm ha hg he
    simp [selectGeminiExecutionMode, hm, ha, hg, he]

/-- Witness for C1 at concrete inputs: one attachment forces `http` with
reason `attachments`; no attachment and no image operation gives `dom`. -/
theorem selectGeminiExecutionMode_spec_witness :
    ((selectGeminiExecutionMode
        { model := "gemini-3-pro-deep-think", attachmentPaths := ["a.txt"],
          generateImagePath := none, editImagePath := none }).mode = .http ∧
      "attachments" ∈ (selectGeminiExecutionMode
        { model := "gemini-3-pro-deep-think", attachmentPaths := ["a.txt"],
          generateImagePath := none, editImagePath := none }).reasons) ∧
    selectGeminiExecutionMode
        { model := "gemini-3-pro-deep-think", attachmentPaths := [],
          generateImagePath := none, editImagePath := none }
      = { mode := .dom, reasons := [] } := by
  refine ⟨(selectGeminiExecutionMode_spec _).1 rfl (by decide), ?_⟩
  exact (selectGeminiExecutionMode_spec
    { model := "gemini-3-pro-deep-think", attachmentPaths := [],
      generateImagePath := none, editImagePath := none }).2 rfl rfl (by decide) (by decide)

/-- C9: the web-model resolver is total, always returns one of the four
model identifiers, and maps every input whose normalized form is not a
known name to `gemini-3-pro`. -/
theorem resolveGeminiWebModel_spec (desiredModel : Option String) :
    resolveGeminiWebModel desiredModel ∈ geminiWebModelIds ∧
    (normalizeGeminiModelName (resolveDesiredGeminiModel desiredModel) ∉ knownGeminiModelNames →
      resolveGeminiWebModel desiredModel = "gemini-3-pro") := by
  constructor
  · unfold resolveGeminiWebModel
    split_ifs <;> simp [geminiWebModelIds]
  · intro h
    unfold resolveGeminiWebModel
    split_ifs with h0 h1 h2 h3 h4
    · rfl
    · exact absurd (by rcases h1 with h1 | h1 <;> simp [knownGeminiModelNames, h1]) h
    · exact absurd (by rcases h2 with h2 | h2 | h2 <;> simp [knownGeminiModelNames, h2]) h
    · exact absurd (by simp [knownGeminiModelNames, h3]) h
    · exact absurd (by simp [knownGeminiModelNames, h4]) h
    · rfl

/-- Witness for C9: an unrecognised model name resolves to the default. -/
theorem resolveGeminiWebModel_spec_witness :
    resolveGeminiWebModel (some "gpt-5") ∈ geminiWebModelIds ∧
    resolveGeminiWebModel (some "gpt-5") = "gemini-3-pro" := by
  exact ⟨(resolveGeminiWebModel_spec (some "gpt-5")).1,
    (resolveGeminiWebModel_spec (some "gpt-5")).2 (by decide)⟩

/-- C10: the effective non-DOM request timeout never exceeds 600000 ms; a
finite configured timeout is clamped to the interval from 1000 ms to
600000 ms; an absent configured timeout yields the per-operation default. -/
theorem resolveGeminiTimeoutMs_spec (configTimeoutMs : Option Int)
    (youtube generateImage editImage : Option String) :
    resolveGeminiTimeoutMs configTimeoutMs youtube generateImage editImage ≤ 600000 ∧
    (∀ t, configTimeoutMs = some t →
      (1000 ≤ t → t ≤ 600000 →
        resolveGeminiTimeoutMs configTimeoutMs youtube generateImage editImage = t) ∧
      (t ≤ 1000 →
        resolveGeminiTimeoutMs configTimeoutMs youtube generateImage editImage = 1000) ∧
      (600000 ≤ t →
        resolveGeminiTimeoutMs configTimeoutMs youtube generateImage editImage = 600000)) ∧
    (configTimeoutMs = none →
      (truthyStr youtube = true →
        resolveGeminiTimeoutMs configTimeoutMs youtube generateImage editImage = 240000) ∧
      (truthyStr youtube = false → (truthyStr generateImage || truthyStr editImage) = true →
        resolveGeminiTimeoutMs configTimeoutMs youtube generateImage editImage = 300000) ∧
      (truthyStr youtube = false → (truthyStr generateImage || truthyStr editImage) = false →
        resolveGeminiTimeoutMs configTimeoutMs youtube generateImage editImage = 120000)) := by
  refine ⟨?_, ?_, ?_⟩
  · unfold resolveGeminiTimeoutMs
    cases configTimeoutMs <;> split_ifs <;> simp [Option.getD] <;> omega
  · intro t ht
    subst ht
    refine ⟨?_, ?_, ?_⟩ <;> intros <;> simp [resolveGeminiTimeoutMs, Option.getD] <;> omega
  · intro hnone
    subst hnone
    refine ⟨?_, ?_, ?_⟩ <;> intros <;> simp_all [resolveGeminiTimeoutMs, Option.getD]

/-- Helper: whenever some cookie matches the requested name, the picked
value is the value of one of the matching cookies, and that value is a
string. -/
theorem pickCookieValue_mem (parseHost : String → Option String)
    (cookies : List CookieParam) (name : String)
    (h : cookies.filter (cookieNameMatches name) ≠ []) :
    ∃ c ∈ cookies.filter (cookieNameMatches name),
      pickCookieValue parseHost cookies name = c.value ∧ c.value.isSome = true := by
  have hempty : (cookies.filter (cookieNameMatches name)).isEmpty = false := by
    simpa [List.isEmpty_iff] using h
  have hval : ∀ c ∈ cookies.filter (cookieNameMatches name), c.value.isSome = true := by
    intro c hc
    have := (List.mem_filter.mp hc).2
    simp [cookieNameMatches] at this
    exact this.2
  unfold pickCookieValue
  simp only [hempty, Bool.false_eq_true, if_false]
  rcases hfe : (cookies.filter (cookieNameMatches name)).find? (isExactApexCookie parseHost)
      with _ | c
  · rcases hfg : (cookies.filter (cookieNameMatches name)).find? (hasApexSuffixDomain parseHost)
        with _ | c
    · rcases hm : cookies.filter (cookieNameMatches name) with _ | ⟨c, rest⟩
      · exact absurd hm h
      · refine ⟨c, by simp [hm], ?_, hval c (by simp [hm])⟩
        simp [hfe, hfg, hm, Option.orElse]
    · have hcmem := List.mem_of_find?_eq_some hfg
      refine ⟨c, hcmem, ?_, hval c hcmem⟩
      simp [hfe, hfg, Option.orElse]
  · have hcmem := List.mem_of_find?_eq_some hfe
    refine ⟨c, hcmem, ?_, hval c hcmem⟩
    simp [hfe, Option.orElse]

/-- C4 (amended): with matches the cookies carrying the requested name and
a string value, the picked value is: the value of a cookie with resolved
domain exactly `google.com` and root path when one exists; otherwise the
value of a cookie whose resolved domain has the apex domain as a suffix;
otherwise the value of the first match; and it is undefined exactly when no
match exists. -/
theorem pickCookieValue_spec (parseHost : String → Option String)
    (cookies : List CookieParam) (name : String) :
    (pickCookieValue parseHost cookies name = none ↔
      cookies.filter (cookieNameMatches name) = []) ∧
    ((∃ c ∈ cookies.filter (cookieNameMatches name), isExactApexCookie parseHost c = true) →
      ∃ c ∈ cookies.filter (cookieNameMatches name), isExactApexCookie parseHost c = true ∧
        pickCookieValue parseHost cookies name = c.value) ∧
    ((¬ ∃ c ∈ cookies.filter (cookieNameMatches name), isExactApexCookie parseHost c = true) →
      (∃ c ∈ cookies.filter (cookieNameMatches name), hasApexSuffixDomain parseHost c = true) →
      ∃ c ∈ cookies.filter (cookieNameMatches name), hasApexSuffixDomain parseHost c = true ∧
        pickCookieValue parseHost cookies name = c.value) ∧
    ((¬ ∃ c ∈ cookies.filter (cookieNameMatches name), isExactApexCookie parseHost c = true) →
      (¬ ∃ c ∈ cookies.filter (cookieNameMatches name), hasApexSuffixDomain parseHost c = true) →
      pickCookieValue parseHost cookies name =
        (cookies.filter (cookieNameMatches name)).head?.bind fun c => c.value) := by
  refine ⟨⟨?_, ?_⟩, ?_, ?_, ?_⟩
  · intro hnone
    by_contra hne
    obtain ⟨c, _, hpick, hsome⟩ := pickCookieValue_mem parseHost cookies name hne
    rw [hpick] at hnone
    rw [hnone] at hsome
    simp at hsome
  · intro hnil
    unfold pickCookieValue
    simp [hnil]
  · rintro ⟨c, hc, hec⟩
    have hsome : ((cookies.filter (cookieNameMatches name)).find?
        (isExactApexCookie parseHost)).isSome := List.find?_isSome.mpr ⟨c, hc, hec⟩
    obtain ⟨c', hc'⟩ := Option.isSome_iff_exists.mp hsome
    have hempty : (cookies.filter (cookieNameMatches name)).isEmpty = false := by
      have : cookies.filter (cookieNameMatches name) ≠ [] := List.ne_nil_of_mem hc
      simpa [List.isEmpty_iff] using this
    refine ⟨c', List.mem_of_find?_eq_some hc', List.find?_some hc', ?_⟩
    unfold pickCookieValue
    simp [hempty, hc', Option.orElse]
  · rintro hne ⟨c, hc, hsc⟩
    have hfe : (cookies.filter (cookieNameMatches name)).find? (isExactApexCookie parseHost)
        = none := by
      rw [List.find?_eq_none]
      intro x hx hpx
      exact hne ⟨x, hx, hpx⟩
    have hsome : ((cookies.filter (cookieNameMatches name)).find?
        (hasApexSuffixDomain parseHost)).isSome := List.find?_isSome.mpr ⟨c, hc, hsc⟩
    obtain ⟨c', hc'⟩ := Option.isSome_iff_exists.mp hsome
    have hempty : (cookies.filter (cookieNameMatches name)).isEmpty = false := by
      have : cookies.filter (cookieNameMatches name) ≠ [] := List.ne_nil_of_mem hc
      simpa [List.isEmpty_iff] using this
    refine ⟨c', List.mem_of_find?_eq_some hc', List.find?_some hc', ?_⟩
    unfold pickCookieValue
    simp [hempty, hfe, hc', Option.orElse]
  · intro hne1 hne2
    have hfe : (cookies.filter (cookieNameMatches name)).find? (isExactApexCookie parseHost)
        = none := by
      rw [List.find?_eq_none]
      intro x hx hpx
      exact hne1 ⟨x, hx, hpx⟩
    have hfg : (cookies.filter (cookieNameMatches name)).find? (hasApexSuffixDomain parseHost)
        = none := by
      rw [List.find?_eq_none]
      intro x hx hpx
      exact hne2 ⟨x, hx, hpx⟩
    unfold pickCookieValue
    rcases hm : cookies.filter (cookieNameMatches name) with _ | ⟨c, rest⟩
    · simp
    · rw [← hm]
      have hempty : (cookies.filter (cookieNameMatches name)).isEmpty = false := by
        simp [List.isEmpty_iff, hm]
      simp [hempty, hfe, hfg, Option.orElse]

/-- Witness for C4: a single stored cookie with domain `.google.com` and
root path is an exact apex match and its value is picked. -/
theorem pickCookieValue_spec_witness :
    (∃ c ∈ c4ExactCookies.filter (cookieNameMatches "SID"),
      isExactApexCookie parseHostNone c = true) ∧
    ∃ c ∈ c4ExactCookies.filter (cookieNameMatches "SID"),
      isExactApexCookie parseHostNone c = true ∧
      pickCookieValue parseHostNone c4ExactCookies "SID" = c.value := by
  refine ⟨by decide, ?_⟩
  exact (pickCookieValue_spec parseHostNone c4ExactCookies "SID").2.1 (by decide)

/-- Counterexample to C4 as stated: with the spec reading of the fallback
rule (stored domain a suffix of the apex domain), no exact apex match
present, cookie `v1` (domain `oogle.com`) is the unique such cookie, yet
the code picks `v2` (domain `gemini.google.com`, of which the apex is a
suffix instead). -/
theorem pickCookieValue_claim_counterexample :
    (∀ c ∈ c4Cookies.filter (cookieNameMatches "SID"),
      isExactApexCookie parseHostNone c = false) ∧
    c4CookieA ∈ c4Cookies.filter (cookieNameMatches "SID") ∧
    specDomainSuffixOfApex parseHostNone c4CookieA = true ∧
    c4CookieA.value = some "v1" ∧
    pickCookieValue parseHostNone c4Cookies "SID" = some "v2" ∧
    (∀ c ∈ c4Cookies.filter (cookieNameMatches "SID"),
      specDomainSuffixOfApex parseHostNone c = true → c.value ≠ some "v2") := by
  decide

/-- C3: when the inline-derived cookie map already satisfies the required
predicate, the chain returns exactly that map and invokes neither the
interactive/manual CDP extraction path nor the native Chrome cookie-store
path, regardless of all other configuration and of what those paths would
have produced. -/
theorem loadGeminiCookies_inline_short_circuit (parseHost : String → Option String)
    (config : GeminiBrowserConfig) (preferManualNoKeychain : Bool)
    (cdpResult : Except String (List (String × String)))
    (chromeResult : List (String × String))
    (h : hasRequiredGeminiCookies (loadGeminiCookiesFromInline parseHost config) = true) :
    loadGeminiCookies parseHost config preferManualNoKeychain cdpResult chromeResult =
      .ok ⟨loadGeminiCookiesFromInline parseHost config, false, false⟩ := by
  unfold loadGeminiCookies
  simp [h]

/-- Witness for C3: two inline cookies carrying the required names satisfy
the predicate and short-circuit the chain even in manual-login mode with a
failing CDP path. -/
theorem loadGeminiCookies_inline_short_circuit_witness :
    hasRequiredGeminiCookies (loadGeminiCookiesFromInline parseHostNone c3InlineConfig) = true ∧
    loadGeminiCookies parseHostNone c3InlineConfig true (.error "sign-in timeout") [] =
      .ok ⟨loadGeminiCookiesFromInline parseHostNone c3InlineConfig, false, false⟩ := by
  refine ⟨by decide, ?_⟩
  exact loadGeminiCookies_inline_short_circuit parseHostNone c3InlineConfig true
    (.error "sign-in timeout") [] (by decide)

/-- Witness for C10: a configured 50-second timeout is used as-is, and with
no configuration a plain text request defaults to 120000 ms. -/
theorem resolveGeminiTimeoutMs_spec_witness :
    resolveGeminiTimeoutMs (some 50000) none none none = 50000 ∧
    resolveGeminiTimeoutMs none none none none = 120000 := by
  refine ⟨((resolveGeminiTimeoutMs_spec (some 50000) none none none).2.1 50000 rfl).1
      (by decide) (by decide), ?_⟩
  exact ((resolveGeminiTimeoutMs_spec none none none none).2.2 rfl).2.2 (by decide) (by decide)

/-- C5: the DOM flow invokes stages only in the fixed order, runs every
defined stage exactly once on success (with a `none` thoughts field when
`extractThoughts` is absent), and stops at the first throwing stage,
propagating exactly its error with no retry. -/
theorem runProviderDomFlow_spec {ε : Type} (a : ProviderDomAdapter ε) :
    ((runProviderDomFlow a).1 =
      (expectedDomStages a).take (runProviderDomFlow a).1.length) ∧
    (∀ r, (runProviderDomFlow a).2 = .ok r →
      (runProviderDomFlow a).1 = expectedDomStages a ∧
      a.waitForResponse = .ok r.response ∧
      (a.extractThoughts = none → r.thoughts = none) ∧
      (∀ th, a.extractThoughts = some (.ok th) → r.thoughts = th)) ∧
    (∀ e, a.waitForUi = .error e →
      runProviderDomFlow a = ([DomStage.waitForUi], .error e)) ∧
    (∀ e, a.waitForUi = .ok () → a.selectMode = some (.error e) →
      runProviderDomFlow a = ([DomStage.waitForUi, DomStage.selectMode], .error e)) ∧
    (∀ e, a.waitForUi = .ok () →
      (a.selectMode = none ∨ a.selectMode = some (.ok ())) → a.typePrompt = .error e →
      runProviderDomFlow a =
        ([DomStage.waitForUi] ++ (if a.selectMode.isSome then [DomStage.selectMode] else []) ++
          [DomStage.typePrompt], .error e)) ∧
    (∀ e, a.waitForUi = .ok () →
      (a.selectMode = none ∨ a.selectMode = some (.ok ())) → a.typePrompt = .ok () →
      a.submitPrompt = .error e →
      runProviderDomFlow a =
        ([DomStage.waitForUi] ++ (if a.selectMode.isSome then [DomStage.selectMode] else []) ++
          [DomStage.typePrompt, DomStage.submitPrompt], .error e)) ∧
    (∀ e, a.waitForUi = .ok () →
      (a.selectMode = none ∨ a.selectMode = some (.ok ())) → a.typePrompt = .ok () →
      a.submitPrompt = .ok () → a.waitForResponse = .error e →
      runProviderDomFlow a =
        ([DomStage.waitForUi] ++ (if a.selectMode.isSome then [DomStage.selectMode] else []) ++
          [DomStage.typePrompt, DomStage.submitPrompt, DomStage.waitForResponse], .error e)) ∧
    (∀ e r, a.waitForUi = .ok () →
      (a.selectMode = none ∨ a.selectMode = some (.ok ())) → a.typePrompt = .ok () →
      a.submitPrompt = .ok () → a.waitForResponse = .ok r →
      a.extractThoughts = some (.error e) →
      runProviderDomFlow a = (expectedDomStages a, .error e)) := by
  rcases a with ⟨w, sm, tp, sp, wr, et⟩
  rcases w with e1 | ⟨⟩ <;>
    rcases sm with _ | e2 | ⟨⟩ <;>
    rcases tp with e3 | ⟨⟩ <;>
    rcases sp with e4 | ⟨⟩ <;>
    rcases wr with e5 | r5 <;>
    rcases et with _ | e6 | t6 <;>
    simp_all [runProviderDomFlow, runProviderSubmissionFlow, expectedDomStages]

/-- Witness for C5: on an adapter with both optional stages defined and
every stage succeeding, the flow runs all six stages in order and returns
the response with its thoughts. -/
theorem runProviderDomFlow_spec_witness :
    (runProviderDomFlow c5Adapter).2 = .ok ⟨⟨"pong", none⟩, some "trace"⟩ ∧
    (runProviderDomFlow c5Adapter).1 = expectedDomStages c5Adapter := by
  refine ⟨rfl, ?_⟩
  exact ((runProviderDomFlow_spec c5Adapter).2.1 ⟨⟨"pong", none⟩, some "trace"⟩ rfl).1

/-- Helper: when no observation before the deadline is ready, the loop
exhausts its observations and fails, with the sign-in message exactly when
a redirect was accumulated or observed. -/
theorem waitForUiLoop_no_ready (polls : List (Option GeminiUiPollState)) (saw : Bool)
    (h : ∀ o ∈ polls, pollReady o = false) :
    waitForUiLoop polls saw =
      .error (if saw || polls.any pollRequiresLogin then geminiSignInMessage
        else geminiUiTimeoutMessage) := by
  induction polls generalizing saw with
  | nil => simp [waitForUiLoop]
  | cons o rest ih =>
    have ho := h o (by simp)
    simp only [waitForUiLoop, ho, Bool.false_eq_true, if_false,
      ih (saw || pollRequiresLogin o) (fun x hx => h x (by simp [hx])), List.any_cons]
    congr 1
    simp [Bool.or_assoc]

/-- Helper: the loop returns successfully as soon as some observation is
ready. -/
theorem waitForUiLoop_ready (polls : List (Option GeminiUiPollState)) (saw : Bool)
    (h : ∃ o ∈ polls, pollReady o = true) :
    waitForUiLoop polls saw = .ok () := by
  induction polls generalizing saw with
  | nil => simp at h
  | cons o rest ih =>
    by_cases ho : pollReady o = true
    · simp [waitForUiLoop, ho]
    · have : ∃ x ∈ rest, pollReady x = true := by
        rcases h with ⟨x, hx, hpx⟩
        rcases List.mem_cons.mp hx with rfl | hx'
        · exact absurd hpx ho
        · exact ⟨x, hx', hpx⟩
      simp [waitForUiLoop, ho, ih _ this]

/-- C6: if the input affordance never becomes ready before the deadline the
stage fails, with the distinct sign-in error exactly when some poll
observed a sign-in redirect and the generic timeout error otherwise; if
some poll observes a ready input the stage returns successfully. -/
theorem waitForUi_spec (polls : List (Option GeminiUiPollState)) :
    ((∀ o ∈ polls, pollReady o = false) →
      ((∃ o ∈ polls, pollRequiresLogin o = true) →
        waitForUi polls = .error geminiSignInMessage) ∧
      ((∀ o ∈ polls, pollRequiresLogin o = false) →
        waitForUi polls = .error geminiUiTimeoutMessage)) ∧
    ((∃ o ∈ polls, pollReady o = true) → waitForUi polls = .ok ()) := by
  refine ⟨fun hnr => ⟨fun hlogin => ?_, fun hnologin => ?_⟩, fun hready => ?_⟩
  · rw [waitForUi, waitForUiLoop_no_ready polls false hnr]
    have : polls.any pollRequiresLogin = true := List.any_eq_true.mpr hlogin
    simp [this]
  · rw [waitForUi, waitForUiLoop_no_ready polls false hnr]
    have : polls.any pollRequiresLogin = false := by
      rw [← Bool.not_eq_true, List.any_eq_true]
      rintro ⟨x, hx, hpx⟩
      rw [hnologin x hx] at hpx
      exact Bool.false_ne_true hpx
    simp [this]
  · exact waitForUiLoop_ready polls false hready

/-- Witness for C6 at concrete poll sequences: a redirect-then-deadline run
fails with the sign-in error, an all-quiet run times out, and a run whose
second poll is ready succeeds. -/
theorem waitForUi_spec_witness :
    waitForUi [some ⟨false, true⟩, none] = .error geminiSignInMessage ∧
    waitForUi [some ⟨false, false⟩, none] = .error geminiUiTimeoutMessage ∧
    waitForUi [none, some ⟨true, false⟩] = .ok () := by
  refine ⟨?_, ?_, ?_⟩
  · exact ((waitForUi_spec [some ⟨false, true⟩, none]).1 (by decide)).1 (by decide)
  · exact ((waitForUi_spec [some ⟨false, false⟩, none]).1 (by decide)).2 (by decide)
  · exact (waitForUi_spec [none, some ⟨true, false⟩]).2 (by decide)

/-- C7: the side-channel extraction never throws; it returns null when the
toggle click did not report `clicked` or when the revealed content is
absent or empty; when content is present it returns the trimmed text, with
a non-empty leading run equal to the toggle's own caption stripped. -/
theorem extractThoughts_spec (thinkResult : Option String)
    (domEval : Option (Option ThoughtsEl)) :
    (∃ v, extractThoughts thinkResult domEval = .ok v) ∧
    (thinkResult ≠ some "clicked" → extractThoughts thinkResult domEval = .ok none) ∧
    (thinkResult = some "clicked" → domEval = some none →
      extractThoughts thinkResult domEval = .ok none) ∧
    (∀ el full cap, thinkResult = some "clicked" → domEval = some (some el) →
      full = strTrim (el.fullRaw.getD "") → cap = strTrim (el.btnRaw.getD "") →
      ((cap ≠ "" ∧ strStartsWith full cap = true) →
        extractThoughts thinkResult domEval =
          .ok (if strLength (strTrim (strDrop full (strLength cap))) > 0 then
            some (strTrim (strDrop full (strLength cap))) else none)) ∧
      (¬(cap ≠ "" ∧ strStartsWith full cap = true) →
        extractThoughts thinkResult domEval =
          .ok (if strLength full > 0 then some full else none))) := by
  refine ⟨?_, fun h => ?_, fun h hd => ?_, fun el full cap ht hd hf hc => ⟨fun hs => ?_, fun hs => ?_⟩⟩
  · unfold extractThoughts
    split
    · exact ⟨none, rfl⟩
    · rcases domEval with _ | dom
      · exact ⟨none, rfl⟩
      · exact ⟨_, rfl⟩
  · simp [extractThoughts, h]
  · simp [extractThoughts, h, hd]
    decide
  · subst ht hd hf hc
    have hpage : pageExtractThoughts (some el) =
        strTrim (strDrop (strTrim (el.fullRaw.getD ""))
          (strLength (strTrim (el.btnRaw.getD "")))) := by
      simp only [pageExtractThoughts]
      exact if_pos hs
    simp [extractThoughts, hpage]
  · subst ht hd hf hc
    have hpage : pageExtractThoughts (some el) = strTrim (el.fullRaw.getD "") := by
      simp only [pageExtractThoughts]
      exact if_neg hs
    simp [extractThoughts, hpage]

/-- Witness for C7 at concrete inputs: a missing toggle yields null, and a
revealed element whose text starts with the toggle caption yields the text
with the caption stripped. -/
theorem extractThoughts_spec_witness :
    extractThoughts (some "no-toggle") (some (some ⟨some "Thoughts abc", some "Thoughts"⟩))
      = .ok none ∧
    extractThoughts (some "clicked") (some (some ⟨some "Thoughts abc", some "Thoughts"⟩))
      = .ok (some "abc") := by
  constructor
  · exact (extractThoughts_spec (some "no-toggle")
      (some (some ⟨some "Thoughts abc", some "Thoughts"⟩))).2.1 (by decide)
  · have := (((extractThoughts_spec (some "clicked")
      (some (some ⟨some "Thoughts abc", some "Thoughts"⟩))).2.2.2
      ⟨some "Thoughts abc", some "Thoughts"⟩ (strTrim "Thoughts abc") (strTrim "Thoughts")
      rfl rfl (by decide) (by decide)).1 (by decide))
    rw [this]
    exact congrArg Except.ok (by decide)

/-- C8: with a truthy recorded port whose liveness probe fails, the open
operation logs the stale port, cleans stale profile state with the
`if_oracle_pid_dead` policy, launches a fresh Chrome, records its port and
(when present) its pid, connects only to the freshly launched port, never
takes the reuse branch, and still returns a session. -/
theorem openGeminiBrowserSession_stale_port_spec (p launchPort : Nat)
    (launchPid : Option Nat) (targetId : Option String) (hp : p ≠ 0) :
    (openGeminiBrowserSession (some p) false launchPort launchPid targetId).1 =
      [SessionEvent.probePort p, SessionEvent.logStalePort p,
       SessionEvent.cleanupProfile .ifOraclePidDead,
       SessionEvent.logLaunch, SessionEvent.launchChrome,
       SessionEvent.writePort launchPort] ++
      (match launchPid with | some pid => [SessionEvent.writePid pid] | none => []) ++
      [SessionEvent.connectNewTab launchPort] ∧
    (openGeminiBrowserSession (some p) false launchPort launchPid targetId).2 =
      ⟨launchPort, targetId, true⟩ ∧
    (∀ q, SessionEvent.logReuse q ∉
      (openGeminiBrowserSession (some p) false launchPort launchPid targetId).1) ∧
    (∀ q, SessionEvent.connectNewTab q ∈
      (openGeminiBrowserSession (some p) false launchPort launchPid targetId).1 →
      q = launchPort) := by
  refine ⟨?_, ?_, ?_, ?_⟩ <;>
    rcases launchPid with _ | pid <;>
    simp [openGeminiBrowserSession, hp]

/-- Witness for C8: recorded port 9222 with a failed probe relaunches on
port 9300 and the session uses the fresh port. -/
theorem openGeminiBrowserSession_stale_port_spec_witness :
    (9222 : Nat) ≠ 0 ∧
    (openGeminiBrowserSession (some 9222) false 9300 (some 77) (some "t")).2 =
      ⟨9300, some "t", true⟩ :=
  ⟨by decide,
   (openGeminiBrowserSession_stale_port_spec 9222 9300 (some 77) (some "t") (by decide)).2.1⟩

/-- C2 (amended): a close without keep-alive closes the isolated target
(when a truthy target id and port exist), closes the connection, and, only
when this invocation launched the browser process, terminates it and
clears the profile state — with the `never` lock-removal policy; no close
ever uses the `if_oracle_pid_dead` policy. -/
theorem closeGeminiBrowserSession_spec (port : Nat) (targetId : Option String)
    (chromeWasLaunched : Bool) :
    SessionEvent.closeClient ∈
      closeGeminiBrowserSession false port targetId chromeWasLaunched ∧
    (∀ t, targetId = some t → t ≠ "" → port ≠ 0 →
      SessionEvent.closeTab port t ∈
        closeGeminiBrowserSession false port targetId chromeWasLaunched) ∧
    (chromeWasLaunched = true →
      SessionEvent.killChrome ∈
        closeGeminiBrowserSession false port targetId chromeWasLaunched ∧
      SessionEvent.cleanupProfile .never ∈
        closeGeminiBrowserSession false port targetId chromeWasLaunched) ∧
    (chromeWasLaunched = false →
      SessionEvent.killChrome ∉
        closeGeminiBrowserSession false port targetId chromeWasLaunched ∧
      ∀ m, SessionEvent.cleanupProfile m ∉
        closeGeminiBrowserSession false port targetId chromeWasLaunched) ∧
    (∀ m, SessionEvent.cleanupProfile m ∈
        closeGeminiBrowserSession false port targetId chromeWasLaunched →
      m = LockRemovalMode.never) := by
  refine ⟨?_, ?_, ?_, ?_, ?_⟩ <;>
    rcases targetId with _ | t <;>
    cases chromeWasLaunched <;>
    simp [closeGeminiBrowserSession] <;>
    intros <;> simp_all

/-- Witness for C2 at a concrete closed session that launched Chrome: the
target and connection are closed, the process killed, and the profile
cleaned with the `never` policy. -/
theorem closeGeminiBrowserSession_spec_witness :
    SessionEvent.closeTab 9222 "t1" ∈ closeGeminiBrowserSession false 9222 (some "t1") true ∧
    SessionEvent.killChrome ∈ closeGeminiBrowserSession false 9222 (some "t1") true ∧
    SessionEvent.cleanupProfile .never ∈
      closeGeminiBrowserSession false 9222 (some "t1") true :=
  ⟨(closeGeminiBrowserSession_spec 9222 (some "t1") true).2.1 "t1" rfl (by decide) (by decide),
   ((closeGeminiBrowserSession_spec 9222 (some "t1") true).2.2.1 rfl).1,
   ((closeGeminiBrowserSession_spec 9222 (some "t1") true).2.2.1 rfl).2⟩

/-- Counterexample to C2 as stated: a session that launched Chrome, closed
without keep-alive, clears profile state with the `never` policy — the
`if_oracle_pid_dead` policy named by the claim is never used on this path. -/
theorem closeGeminiBrowserSession_claim_counterexample :
    closeGeminiBrowserSession false 9222 (some "t1") true =
      [SessionEvent.closeTab 9222 "t1", SessionEvent.closeClient,
       SessionEvent.killChrome, SessionEvent.cleanupProfile .never] ∧
    SessionEvent.cleanupProfile .ifOraclePidDead ∉
      closeGeminiBrowserSession false 9222 (some "t1") true := by
  decide

end Oracle
